import Mathlib

/-!
Verification development for the depot-dashboard financial analytics core.

The definitions below are a shallow embedding of the Python/Polars code in
`src/analysis/{metrics,ttm,fx,portfolio}.py` and `src/config/models.py`.
Tables become lists of structures, Polars nullable Float64 cells become
`Option` values, and dates become integer day numbers.  Where IEEE-754
division semantics matter (Polars propagates `inf`/`NaN` for float columns,
it does not nullify them), cells are modelled as `Option FVal` with `FVal`
carrying exact rationals plus the non-finite specials; rationals stand for
exactly representable doubles, which suffices for the null/non-finite
propagation properties studied here.
-/

namespace DepotSpec

/-- Generic two-argument coalesce, mirroring `pl.coalesce(a, b)`:
the first non-null operand wins. -/
def coalesce2 {α : Type} : Option α → Option α → Option α
  | some x, _ => some x
  | none, b => b

/-- Polars `Series.sum` semantics on a nullable column: nulls count as zero and
the empty/all-null sum is `0`. -/
def plSum (l : List (Option ℚ)) : ℚ :=
  (l.map (fun o => o.getD 0)).sum

/-- Polars `Expr.tail(4)` on a window: the last (up to) four elements,
taken positionally, nulls included. -/
def plTail4 {α : Type} (l : List α) : List α :=
  l.drop (l.length - 4)

/-- Polars `Expr.last()` on a nullable window column: the positionally last
element (null when the window is empty or the last element is null). -/
def plLast (l : List (Option ℚ)) : Option ℚ :=
  (l.getLast?).getD none

/-- Model of Python `str.endswith` / Polars `str.ends_with` on UTF-8 data. -/
def strEndsWith (s suffix : String) : Bool :=
  suffix.data.isSuffixOf s.data

/-! ### IEEE-754 value model for Polars Float64 cells

A Polars Float64 cell is either null (`none`) or a float value.  Float values
are modelled exactly: a rational for the finite values, plus `+inf`, `-inf`
and `NaN`.  Zeros are unsigned; the only division-by-zero sites reachable in
the embedded code build their denominators by subtraction, whose exact result
on equal operands is `+0.0`, so division by zero follows the `+0` sign rule. -/

/-- A (non-null) Polars Float64 value: exact finite rational or a special. -/
inductive FVal : Type where
  | finite (q : ℚ)
  | pinf
  | ninf
  | nan
deriving DecidableEq, Repr

/-- A nullable Float64 cell. -/
abbrev FCell : Type := Option FVal

/-- IEEE negation. -/
def FVal.neg : FVal → FVal
  | .finite q => .finite (-q)
  | .pinf => .ninf
  | .ninf => .pinf
  | .nan => .nan

/-- IEEE addition (exact on finite values). -/
def FVal.add : FVal → FVal → FVal
  | .nan, _ => .nan
  | _, .nan => .nan
  | .pinf, .ninf => .nan
  | .ninf, .pinf => .nan
  | .pinf, _ => .pinf
  | _, .pinf => .pinf
  | .ninf, _ => .ninf
  | _, .ninf => .ninf
  | .finite a, .finite b => .finite (a + b)

/-- IEEE subtraction. -/
def FVal.sub (a b : FVal) : FVal :=
  a.add b.neg

/-- IEEE absolute value. -/
def FVal.abs : FVal → FVal
  | .finite q => .finite |q|
  | .pinf => .pinf
  | .ninf => .pinf
  | .nan => .nan

/-- IEEE division (exact on finite values; division by zero produces the
signed infinity of the numerator, `0/0` produces `NaN`). -/
def FVal.div : FVal → FVal → FVal
  | .nan, _ => .nan
  | _, .nan => .nan
  | .pinf, .pinf => .nan
  | .pinf, .ninf => .nan
  | .ninf, .pinf => .nan
  | .ninf, .ninf => .nan
  | .pinf, .finite b => if b < 0 then .ninf else .pinf
  | .ninf, .finite b => if b < 0 then .pinf else .ninf
  | .finite _, .pinf => .finite 0
  | .finite _, .ninf => .finite 0
  | .finite a, .finite b =>
      if b = 0 then (if a = 0 then .nan else if 0 < a then .pinf else .ninf)
      else .finite (a / b)

/-- Polars strict `gt(0)` comparison on a Float64 value (`NaN > 0` is false). -/
def FVal.gtZero : FVal → Bool
  | .finite q => decide (0 < q)
  | .pinf => true
  | .ninf => false
  | .nan => false

/-- Lift a binary float operation to nullable cells: Polars arithmetic on a
null operand yields null. -/
def cellMap2 (f : FVal → FVal → FVal) : FCell → FCell → FCell
  | some a, some b => some (f a b)
  | _, _ => none

/-- Nullable addition. -/
def fadd : FCell → FCell → FCell := cellMap2 FVal.add

/-- Nullable subtraction. -/
def fsub : FCell → FCell → FCell := cellMap2 FVal.sub

/-- Nullable division. -/
def fdivC : FCell → FCell → FCell := cellMap2 FVal.div

/-- Nullable absolute value (`Expr.abs`). -/
def fabsC (c : FCell) : FCell := c.map FVal.abs

/-- Polars `fill_null(0)`. -/
def fillNull0 (c : FCell) : FCell :=
  some (c.getD (.finite 0))

/-! ### Fundamental metrics (`MetricsEngine.calculate_fundamental_metrics`)

One row of the fundamentals table after `_ensure_schema` has materialised all
referenced columns (missing columns become all-null Float64 columns). -/

/-- A fundamentals row; every monetary column is a nullable Float64 cell. -/
structure FundRow : Type where
  ticker : String
  total_assets : FCell
  total_current_liabilities : FCell
  total_equity : FCell
  total_debt : FCell
  long_term_debt : FCell
  short_term_debt : FCell
  cash_and_equivalents : FCell
  goodwill : FCell
  intangible_assets : FCell
  goodwill_and_intangible_assets : FCell
  operating_cash_flow : FCell
  capital_expenditure : FCell
  free_cash_flow : FCell
  revenue : FCell
  gross_profit : FCell
  ebit : FCell
  net_income : FCell
  interest_expense : FCell
deriving DecidableEq, Repr

/-- The `debt_expr` coalesce: `total_debt`, else
`long_term_debt.fill_null(0) + short_term_debt.fill_null(0)`. -/
def debt_expr (r : FundRow) : FCell :=
  coalesce2 r.total_debt (fadd (fillNull0 r.long_term_debt) (fillNull0 r.short_term_debt))

/-- The `intangibles_expr` coalesce: `goodwill_and_intangible_assets`, else
`goodwill.fill_null(0) + intangible_assets.fill_null(0)`. -/
def intangibles_expr (r : FundRow) : FCell :=
  coalesce2 r.goodwill_and_intangible_assets
    (fadd (fillNull0 r.goodwill) (fillNull0 r.intangible_assets))

/-- `capital_employed = total_assets - total_current_liabilities`. -/
def capital_employed (r : FundRow) : FCell :=
  fsub r.total_assets r.total_current_liabilities

/-- `tangible_capital_employed = total_equity + debt.fill_null(0)
- cash_and_equivalents.fill_null(0) - intangibles.fill_null(0)`. -/
def tangible_capital_employed (r : FundRow) : FCell :=
  fsub (fsub (fadd r.total_equity (fillNull0 (debt_expr r)))
      (fillNull0 r.cash_and_equivalents))
    (fillNull0 (intangibles_expr r))

/-- `net_debt = debt.fill_null(0) - cash_and_equivalents.fill_null(0)`. -/
def net_debt (r : FundRow) : FCell :=
  fsub (fillNull0 (debt_expr r)) (fillNull0 r.cash_and_equivalents)

/-- `fcf_calculated = operating_cash_flow - capital_expenditure.abs()`. -/
def fcf_calculated (r : FundRow) : FCell :=
  fsub r.operating_cash_flow (fabsC r.capital_expenditure)

/-- `free_cash_flow_final = coalesce(free_cash_flow, fcf_calculated)`. -/
def free_cash_flow_final (r : FundRow) : FCell :=
  coalesce2 r.free_cash_flow (fcf_calculated r)

/-- `roce = ebit / capital_employed` (an unguarded Float64 division). -/
def roce (r : FundRow) : FCell :=
  fdivC r.ebit (capital_employed r)

/-- `rotce = when(tangible_capital_employed > 0).then(ebit / tangible_capital_employed)
.otherwise(None)`; a null or non-positive denominator selects the null branch. -/
def rotce (r : FundRow) : FCell :=
  match tangible_capital_employed r with
  | some v => if v.gtZero then fdivC r.ebit (some v) else none
  | none => none

/-- `net_debt_to_ebit = debt_expr / ebit`. -/
def net_debt_to_ebit (r : FundRow) : FCell :=
  fdivC (debt_expr r) r.ebit

/-- `interest_coverage = ebit / interest_expense.abs()`. -/
def interest_coverage (r : FundRow) : FCell :=
  fdivC r.ebit (fabsC r.interest_expense)

/-- `net_profit_margin = net_income / revenue`. -/
def net_profit_margin (r : FundRow) : FCell :=
  fdivC r.net_income r.revenue

/-- `gross_margin = gross_profit / revenue`. -/
def gross_margin (r : FundRow) : FCell :=
  fdivC r.gross_profit r.revenue

/-- `ebit_margin = ebit / revenue`. -/
def ebit_margin (r : FundRow) : FCell :=
  fdivC r.ebit r.revenue

/-- `cash_conversion_ratio = free_cash_flow / net_income`, computed after
`free_cash_flow` has been overwritten with `free_cash_flow_final`. -/
def cash_conversion_ratio (r : FundRow) : FCell :=
  fdivC (free_cash_flow_final r) r.net_income

/-! ### Pence-to-pounds correction (`MetricsEngine._pound_fix`)

A row holds the ticker, the currency code and the monetary columns as an
association list of column name and value; `_pound_fix` rewrites the columns
named in `value_cols` and the currency column. -/

/-- A row as seen by `_pound_fix`: ticker, currency and named monetary columns. -/
structure MonetaryRow : Type where
  ticker : String
  currency : String
  vals : List (String × ℚ)
deriving DecidableEq, Repr

/-- One row of `_pound_fix`: each column in `value_cols` is divided by 100 when
the currency is pence (`"GBp"`) and the ticker ends in `".L"`; the currency is
rewritten to `"GBP"` whenever it is `"GBp"`.  Both conditions read the
original currency value, matching the simultaneous `with_columns`. -/
def pound_fix_row (value_cols : List String) (r : MonetaryRow) : MonetaryRow :=
  { ticker := r.ticker
    currency := if r.currency = "GBp" then "GBP" else r.currency
    vals := r.vals.map (fun cv =>
      if cv.1 ∈ value_cols ∧ r.currency = "GBp" ∧ strEndsWith r.ticker ".L"
      then (cv.1, cv.2 / 100) else cv) }

/-- `_pound_fix` applied to a whole table. -/
def pound_fix (value_cols : List String) (df : List MonetaryRow) : List MonetaryRow :=
  df.map (pound_fix_row value_cols)

/-! ### Sorting infrastructure

Polars `sort(["ticker", "date"])` is modelled by insertion sort under the
lexicographic order on the (ticker, date) key; `sort("date")` by the order on
the date alone. -/

/-- Lexicographic order on a (ticker, date) sort key. -/
def keyLE (k1 k2 : String × ℤ) : Prop :=
  k1.1 < k2.1 ∨ (k1.1 = k2.1 ∧ k1.2 ≤ k2.2)

instance : DecidableRel keyLE := fun _ _ =>
  inferInstanceAs (Decidable (_ ∨ _))

instance : IsTotal (String × ℤ) keyLE := by
  constructor
  intro a b
  rcases lt_trichotomy a.1 b.1 with h | h | h
  · exact Or.inl (Or.inl h)
  · rcases le_total a.2 b.2 with h2 | h2
    · exact Or.inl (Or.inr ⟨h, h2⟩)
    · exact Or.inr (Or.inr ⟨h.symm, h2⟩)
  · exact Or.inr (Or.inl h)

instance : IsTrans (String × ℤ) keyLE := by
  constructor
  intro a b c hab hbc
  rcases hab with h1 | ⟨e1, l1⟩
  · rcases hbc with h2 | ⟨e2, _⟩
    · exact Or.inl (h1.trans h2)
    · exact Or.inl (e2 ▸ h1)
  · rcases hbc with h2 | ⟨e2, l2⟩
    · exact Or.inl (e1 ▸ h2)
    · exact Or.inr ⟨e1.trans e2, l1.trans l2⟩

/-- Pull a (ticker, date) sort key back along a key function. -/
def leByKey {α : Type} (key : α → String × ℤ) (a b : α) : Prop :=
  keyLE (key a) (key b)

instance {α : Type} (key : α → String × ℤ) : DecidableRel (leByKey key) :=
  fun a b => inferInstanceAs (Decidable (keyLE (key a) (key b)))

instance {α : Type} (key : α → String × ℤ) : IsTotal α (leByKey key) :=
  ⟨fun a b => IsTotal.total (r := keyLE) (key a) (key b)⟩

instance {α : Type} (key : α → String × ℤ) : IsTrans α (leByKey key) :=
  ⟨fun _ _ _ hab hbc => IsTrans.trans (r := keyLE) _ _ _ hab hbc⟩

/-- Pull the date order back along a date projection (`sort("date")`). -/
def leByDate {α : Type} (d : α → ℤ) (a b : α) : Prop :=
  d a ≤ d b

instance {α : Type} (d : α → ℤ) : DecidableRel (leByDate d) :=
  fun a b => inferInstanceAs (Decidable (d a ≤ d b))

instance {α : Type} (d : α → ℤ) : IsTotal α (leByDate d) :=
  ⟨fun a b => le_total (d a) (d b)⟩

instance {α : Type} (d : α → ℤ) : IsTrans α (leByDate d) :=
  ⟨fun _ _ _ hab hbc => le_trans hab hbc⟩

/-- Descending date order (`sort("date", descending=True)`). -/
def descByDate {α : Type} (d : α → ℤ) (a b : α) : Prop :=
  d b ≤ d a

instance {α : Type} (d : α → ℤ) : DecidableRel (descByDate d) :=
  fun a b => inferInstanceAs (Decidable (d b ≤ d a))

instance {α : Type} (d : α → ℤ) : IsTotal α (descByDate d) :=
  ⟨fun a b => le_total (d b) (d a)⟩

instance {α : Type} (d : α → ℤ) : IsTrans α (descByDate d) :=
  ⟨fun _ _ _ hab hbc => le_trans hbc hab⟩

/-! ### TTM aggregation engine (`TTMEngine.calculate_ttm_history`)

Quarterly rows are modelled with the full column schema: all ten flow metric
columns and all nine point metric columns present (the engine aggregates
whichever of these columns exist; the valuation pipeline materialises them
via `_ensure_schema` before calling the engine). -/

/-- The ten flow metric columns, summed over the trailing window. -/
inductive FlowName : Type where
  | revenue
  | gross_profit
  | ebit
  | net_income
  | operating_cash_flow
  | capital_expenditure
  | free_cash_flow
  | interest_expense
  | cash_dividends_paid
  | diluted_eps
deriving DecidableEq, Repr, Fintype

/-- The nine point metric columns, snapshotted at the window end. -/
inductive PointName : Type where
  | total_assets
  | total_current_liabilities
  | total_equity
  | long_term_debt
  | short_term_debt
  | total_debt
  | cash_and_equivalents
  | basic_average_shares
  | diluted_average_shares
deriving DecidableEq, Repr, Fintype

/-- A raw quarterly report row. -/
structure QRow : Type where
  ticker : String
  report_date : ℤ
  flows : FlowName → Option ℚ
  points : PointName → Option ℚ
  currency : String
  period_type : String
deriving DecidableEq

/-- A TTM output row (the `_record_count` debug column has been dropped). -/
structure TTMRow : Type where
  ticker : String
  report_date : ℤ
  flows_ttm : FlowName → ℚ
  points_ttm : PointName → Option ℚ
  currency : Option String
  period_type : Option String
deriving DecidableEq

/-- A TTM row before the coverage filter, still carrying `_record_count`. -/
structure TTMAgg : Type where
  ticker : String
  report_date : ℤ
  flows_ttm : FlowName → ℚ
  points_ttm : PointName → Option ℚ
  currency : Option String
  period_type : Option String
  record_count : ℕ
deriving DecidableEq

/-- Drop the `_record_count` column. -/
def dropCount (a : TTMAgg) : TTMRow :=
  { ticker := a.ticker
    report_date := a.report_date
    flows_ttm := a.flows_ttm
    points_ttm := a.points_ttm
    currency := a.currency
    period_type := a.period_type }

/-- The filter dropping balance-sheet-only filler rows: a row is kept when
`revenue` or `net_income` is non-null. -/
def cleanRows (rows : List QRow) : List QRow :=
  rows.filter (fun r => (r.flows .revenue).isSome || (r.flows .net_income).isSome)

/-- Sort by `["ticker", "report_date"]`. -/
def sortQ (rows : List QRow) : List QRow :=
  List.insertionSort (leByKey (fun r => (r.ticker, r.report_date))) rows

/-- The rolling window for the row of ticker `tk` at index value `t`:
`period="395d", closed="right"` keeps the group rows with report_date in
`(t - 395, t]`, in frame order. -/
def ttmWindow (sorted : List QRow) (tk : String) (t : ℤ) : List QRow :=
  sorted.filter (fun r => r.ticker = tk ∧ t - 395 < r.report_date ∧ r.report_date ≤ t)

/-- The aggregations over one window: flow columns are `tail(4).sum()`, point
columns are `last()`, currency and period_type pass through via `last()`, and
`_record_count` is `len()`. -/
def aggWindow (tk : String) (t : ℤ) (w : List QRow) : TTMAgg :=
  { ticker := tk
    report_date := t
    flows_ttm := fun f => plSum (plTail4 (w.map (fun r => r.flows f)))
    points_ttm := fun p => plLast (w.map (fun r => r.points p))
    currency := (w.map (fun r => r.currency)).getLast?
    period_type := (w.map (fun r => r.period_type)).getLast?
    record_count := w.length }

/-- `TTMEngine.calculate_ttm_history`: drop P&L-empty rows, sort by
(ticker, report_date), aggregate each row's trailing 395-day window, and keep
only rows backed by at least 4 window rows.  The output of the rolling
aggregation is already sorted, so the second sort of the pipeline is the
identity here. -/
def calculate_ttm_history (rows : List QRow) : List TTMRow :=
  if rows.isEmpty then [] else
  if (cleanRows rows).isEmpty then [] else
  (((sortQ (cleanRows rows)).map (fun r => aggWindow r.ticker r.report_date
      (ttmWindow (sortQ (cleanRows rows)) r.ticker r.report_date))).filter
    (fun a => 4 ≤ a.record_count)).map dropCount

/-! ### Hybrid valuation merge (`MetricsEngine.calculate_valuation_metrics`)

This embeds the merge stage (metrics.py lines 308-379): given the daily price
rows and the already-built annual and TTM projections, sort, run the two
grouped backward asof joins, materialise missing joined columns as nulls, and
compute the coalesced metrics.  The projection building (lines 237-306) and
the trailing dividend stage (lines 380-404) are outside the claims studied
here. -/

/-- A daily price row as consumed by the merge. -/
structure PriceRow : Type where
  ticker : String
  date : ℤ
  close : ℚ
  currency : String
deriving DecidableEq, Repr

/-- One row of the annual projection `q_annual`. -/
structure AnnualProj : Type where
  ticker : String
  report_date : ℤ
  eps_annual : Option ℚ
  revenue_annual : Option ℚ
  fcf_annual : Option ℚ
  shares_annual : Option ℚ
  dividend_annual : Option ℚ
deriving DecidableEq, Repr

/-- One row of the TTM projection `q_ttm`. -/
structure TTMProj : Type where
  ticker : String
  report_date : ℤ
  net_income_ttm : Option ℚ
  eps_ttm : Option ℚ
  revenue_ttm : Option ℚ
  fcf_ttm : Option ℚ
  shares_ttm : Option ℚ
deriving DecidableEq, Repr

/-- One output row of the merge (the valuation columns of `df_enriched`
before the trailing dividend stage). -/
structure ValuationRow : Type where
  ticker : String
  date : ℤ
  close : ℚ
  currency : String
  eps_annual : Option ℚ
  revenue_annual : Option ℚ
  fcf_annual : Option ℚ
  shares_annual : Option ℚ
  dividend_annual : Option ℚ
  report_date : Option ℤ
  net_income_ttm : Option ℚ
  eps_ttm : Option ℚ
  revenue_ttm : Option ℚ
  fcf_ttm : Option ℚ
  shares_ttm : Option ℚ
  report_date_ttm : Option ℤ
  pe_ratio : FCell
  ps_ratio : FCell
  fcf_yield : FCell
  div_yield_calc : FCell
  valuation_source : String
  metric_date : Option ℤ
  diluted_average_shares : Option ℚ
  data_lag_days : Option ℤ
deriving DecidableEq, Repr

/-- Lift an exact nullable rational cell into the Float64 cell model. -/
def liftQ (o : Option ℚ) : FCell :=
  o.map FVal.finite

/-- Grouped backward asof join against the annual projection: the most recent
projection row of the same ticker whose `report_date` is on or before the
price date (`getLast?` of the order-preserving filter of a
report_date-sorted frame); `none` when no row qualifies. -/
def asofAnnual (qa : List AnnualProj) (tk : String) (d : ℤ) : Option AnnualProj :=
  (qa.filter (fun a => a.ticker = tk ∧ a.report_date ≤ d)).getLast?

/-- Grouped backward asof join against the TTM projection. -/
def asofTTM (qt : List TTMProj) (tk : String) (d : ℤ) : Option TTMProj :=
  (qt.filter (fun a => a.ticker = tk ∧ a.report_date ≤ d)).getLast?

/-- Build one enriched row from a price row and its two asof matches.  A
missed join leaves every joined column null (this also covers
`_ensure_schema` materialising the columns when a projection is empty). -/
def enrichRow (p : PriceRow) (a? : Option AnnualProj) (t? : Option TTMProj) :
    ValuationRow :=
  let epsT := t?.bind (fun t => t.eps_ttm)
  let epsA := a?.bind (fun a => a.eps_annual)
  let eps := coalesce2 epsT epsA
  let md := coalesce2 (t?.map (fun t => t.report_date)) (a?.map (fun a => a.report_date))
  let sh := coalesce2 (t?.bind (fun t => t.shares_ttm)) (a?.bind (fun a => a.shares_annual))
  let rev := coalesce2 (t?.bind (fun t => t.revenue_ttm)) (a?.bind (fun a => a.revenue_annual))
  let fcf := coalesce2 (t?.bind (fun t => t.fcf_ttm)) (a?.bind (fun a => a.fcf_annual))
  let divA := a?.bind (fun a => a.dividend_annual)
  { ticker := p.ticker
    date := p.date
    close := p.close
    currency := p.currency
    eps_annual := epsA
    revenue_annual := a?.bind (fun a => a.revenue_annual)
    fcf_annual := a?.bind (fun a => a.fcf_annual)
    shares_annual := a?.bind (fun a => a.shares_annual)
    dividend_annual := divA
    report_date := a?.map (fun a => a.report_date)
    net_income_ttm := t?.bind (fun t => t.net_income_ttm)
    eps_ttm := epsT
    revenue_ttm := t?.bind (fun t => t.revenue_ttm)
    fcf_ttm := t?.bind (fun t => t.fcf_ttm)
    shares_ttm := t?.bind (fun t => t.shares_ttm)
    report_date_ttm := t?.map (fun t => t.report_date)
    pe_ratio := fdivC (some (.finite p.close)) (liftQ eps)
    ps_ratio := fdivC (some (.finite p.close)) (fdivC (liftQ rev) (liftQ sh))
    fcf_yield := fdivC (fdivC (liftQ fcf) (liftQ sh)) (some (.finite p.close))
    div_yield_calc := fdivC (fdivC (liftQ divA) (liftQ sh)) (some (.finite p.close))
    valuation_source :=
      if epsT.isSome then "TTM" else if epsA.isSome then "Annual" else "N/A"
    metric_date := md
    diluted_average_shares := sh
    data_lag_days := md.map (fun m => p.date - m) }

/-- The coalesced eps used by `pe_ratio`: `coalesce(eps_ttm, eps_annual)`. -/
def eps_value (v : ValuationRow) : Option ℚ :=
  coalesce2 v.eps_ttm v.eps_annual

/-- The merge stage of `calculate_valuation_metrics`: sort prices by
(ticker, date), sort each projection by report_date, backward-asof join both
projections per ticker, and compute the valuation columns. -/
def valuationMerge (prices : List PriceRow) (qa : List AnnualProj)
    (qt : List TTMProj) : List ValuationRow :=
  let qaS := List.insertionSort (leByDate (fun a : AnnualProj => a.report_date)) qa
  let qtS := List.insertionSort (leByDate (fun t : TTMProj => t.report_date)) qt
  let pS := List.insertionSort (leByKey (fun p : PriceRow => (p.ticker, p.date))) prices
  pS.map (fun p => enrichRow p (asofAnnual qaS p.ticker p.date) (asofTTM qtS p.ticker p.date))

/-! ### FX conversion engine (`FXEngine`)

The engine holds the target currency (construction accepts only `"EUR"`) and
the per-currency rate series extracted from the price table; each series is
ascending in date, as produced by `_extract_rates`. -/

/-- One point of a rate series: `(date, rate)`. -/
structure RatePoint : Type where
  rdate : ℤ
  rate : ℚ
deriving DecidableEq, Repr

/-- The FX engine state after construction. -/
structure FXEngine : Type where
  target_currency : String
  fx_rates : List (String × List RatePoint)
deriving DecidableEq, Repr

/-- Dictionary lookup in `self.fx_rates`. -/
def lookupRates (e : FXEngine) (c : String) : Option (List RatePoint) :=
  e.fx_rates.lookup c

/-- `FXEngine.convert_amount`: identity when the source currency is the
target; otherwise take the rate series, keep the rates on or before the date,
sort descending and take the first; a missing series or an empty filter
returns the amount unchanged. -/
def convert_amount (e : FXEngine) (amount : ℚ) (d : ℤ) (src : String) : ℚ :=
  if src = e.target_currency then amount
  else
    match lookupRates e src with
    | none => amount
    | some series =>
      match (List.insertionSort (descByDate (fun p : RatePoint => p.rdate))
          (series.filter (fun p => p.rdate ≤ d))).head? with
      | none => amount
      | some p => amount / p.rate

/-- A row of a table passed to `convert_to_target`: date, currency code and
the amount column, plus the ticker carried along by the portfolio caller. -/
structure AmtRow : Type where
  date : ℤ
  currency : String
  amount : ℚ
  ticker : String
deriving DecidableEq, Repr

/-- An output row of `convert_to_target`: the input columns plus the converted
amount column (nullable: the asof join may miss). -/
structure ConvRow : Type where
  date : ℤ
  currency : String
  amount : ℚ
  ticker : String
  converted : Option ℚ
deriving DecidableEq, Repr

/-- Backward asof rate lookup on an ascending rate series: the last rate whose
date is on or before `d`. -/
def asofRate (series : List RatePoint) (d : ℤ) : Option ℚ :=
  ((series.filter (fun p => p.rdate ≤ d)).getLast?).map (fun p => p.rate)

/-- Is the currency a key of `fx_rates`? -/
def isSupported (e : FXEngine) (c : String) : Bool :=
  (lookupRates e c).isSome

/-- `FXEngine.convert_to_target`: rows already in the target currency pass
through; rows in each supported currency are date-sorted and asof-joined with
that currency's rate series (`amount / rate`, null when the join misses);
rows in unsupported currencies pass through; the chunks are concatenated and
re-sorted by date. -/
def convert_to_target (e : FXEngine) (df : List AmtRow) : List ConvRow :=
  let home := (df.filter (fun r => r.currency = e.target_currency)).map
    (fun r => ConvRow.mk r.date r.currency r.amount r.ticker (some r.amount))
  let foreign := df.filter (fun r => r.currency ≠ e.target_currency)
  let chunks := e.fx_rates.map (fun cr =>
    (List.insertionSort (leByDate (fun r : AmtRow => r.date))
        (foreign.filter (fun r => r.currency = cr.1))).map
      (fun r => ConvRow.mk r.date r.currency r.amount r.ticker
        ((asofRate cr.2 r.date).map (fun rt => r.amount / rt))))
  let unsupported := (foreign.filter (fun r => ¬ isSupported e r.currency)).map
    (fun r => ConvRow.mk r.date r.currency r.amount r.ticker (some r.amount))
  List.insertionSort (leByDate (fun c : ConvRow => c.date))
    (home ++ chunks.flatten ++ unsupported)

/-! ### Portfolio configuration (`src/config/models.py`)

The pydantic `Portfolio` model: field validators run in field declaration
order (start_date, initial_capital, then the positions with their own
validators), followed by `model_post_init`; the first failing check rejects
the configuration.  The ISO-format parse of `start_date` is absorbed by
holding the date as a day number. -/

/-- `PortfolioType`. -/
inductive PType : Type where
  | weighted
  | absolute
  | watchlist
deriving DecidableEq, Repr

/-- A `Position` entry. -/
structure Position : Type where
  ticker : String
  weight : Option ℚ
  shares : Option ℚ
deriving DecidableEq, Repr

/-- A validated `Portfolio` model instance as the engines consume it. -/
structure Portfolio : Type where
  name : String
  ptype : PType
  start_date : Option ℤ
  initial_capital : Option ℚ
  positions : List Position
deriving DecidableEq, Repr

/-- A `Portfolio` configuration as parsed from the raw input mapping, before
validation.  The two defaulted optional fields distinguish a key that is
absent from the input (`none` — pydantic v2 applies the default and skips
the field validators) from a key explicitly present with a null value
(`some none` — the field validators run on `None`).  `Position.weight` and
`Position.shares` need no such split: their validators no-op on `None`, so
an omitted and an explicitly-null key behave identically. -/
structure RawPortfolio : Type where
  name : String
  ptype : PType
  start_date : Option (Option ℤ)
  initial_capital : Option (Option ℚ)
  positions : List Position
deriving DecidableEq, Repr

/-- `validate_capital`'s positivity check on a present value. -/
def capNonPositive (oc : Option ℚ) : Bool :=
  match oc with
  | some c => decide (c ≤ 0)
  | none => false

/-- `validate_weight`: a present weight outside `[0, 1]` is rejected. -/
def weightOutOfRange (ow : Option ℚ) : Bool :=
  match ow with
  | some w => decide (w < 0 ∨ 1 < w)
  | none => false

/-- `validate_shares`: a present share count must be positive. -/
def sharesNonPositive (os : Option ℚ) : Bool :=
  match os with
  | some s => decide (s ≤ 0)
  | none => false

/-- The declared weight sum used by `model_post_init`
(`sum(pos.weight or 0.0)`). -/
def totalWeight (positions : List Position) : ℚ :=
  (positions.map (fun pos => pos.weight.getD 0)).sum

/-- Construction-time validation of a `Portfolio` under pydantic v2
semantics: the required-field checks of `validate_start_date_format` and
`validate_capital` fire only when the key is present in the input with a
null value — an omitted key takes the `None` default with the field
validators skipped (the model sets no `validate_default`).  The remaining
checks (`validate_weight`, `validate_shares`, `validate_positions`,
`model_post_init`) behave the same on omitted and explicit-null keys. -/
def validatePortfolio (p : RawPortfolio) : Except String Portfolio :=
  if p.ptype = PType.weighted ∧ p.start_date = some none then
    Except.error "start_date is required for weighted portfolios"
  else if p.ptype = PType.weighted ∧ p.initial_capital = some none then
    Except.error "initial_capital is required for weighted portfolios"
  else if capNonPositive (p.initial_capital.getD none) then
    Except.error "initial_capital must be positive"
  else if p.positions.any (fun pos => weightOutOfRange pos.weight) then
    Except.error "Weight must be between 0 and 1"
  else if p.positions.any (fun pos => sharesNonPositive pos.shares) then
    Except.error "Shares must be positive"
  else if p.positions.isEmpty then
    Except.error "Portfolio must have at least one position"
  else if p.ptype = PType.weighted ∧ ¬ |totalWeight p.positions - 1| ≤ 1 / 1000000 then
    Except.error "Weights must sum to 1.0 for weighted portfolios"
  else if p.ptype = PType.weighted ∧ p.positions.any (fun pos => pos.weight.isNone) then
    Except.error "All positions must have weights in weighted portfolios"
  else if p.ptype = PType.absolute ∧ p.positions.any (fun pos => pos.shares.isNone) then
    Except.error "All positions must have shares in absolute portfolios"
  else Except.ok
    { name := p.name
      ptype := p.ptype
      start_date := p.start_date.getD none
      initial_capital := p.initial_capital.getD none
      positions := p.positions }

/-! ### Weighted buy-and-hold strategy (`PortfolioEngine._calculate_weighted`) -/

/-- A price row as consumed by the portfolio engine (the prices carry the
rolling dividend sum from the valuation pipeline). -/
structure WPriceRow : Type where
  ticker : String
  date : ℤ
  close : ℚ
  currency : String
  rolling_dividend_sum : Option ℚ
deriving DecidableEq, Repr

/-- One output row of the weighted strategy. -/
structure WRow : Type where
  date : ℤ
  ticker : String
  position_value : Option ℚ
  currency : String
  implied_shares : Option ℚ
  weight : Option ℚ
  position_dividend_yoy : Option ℚ
deriving DecidableEq, Repr

/-- `group_by("ticker").agg(pl.all().first())` on a date-sorted frame: keep
the first occurrence of each ticker. -/
def firstPerTicker (l : List WPriceRow) : List WPriceRow :=
  l.foldl (fun acc r =>
    if acc.any (fun x => x.ticker = r.ticker) then acc else acc ++ [r]) []

/-- The weight normalisation applied by `_calculate_weighted`:
`pl.col("weight") / pl.col("weight").sum()`. -/
def normalizeWeights (ws : List ℚ) : List ℚ :=
  ws.map (fun w => w / ws.sum)

/-- `PortfolioEngine._calculate_weighted`: raise when `start_date` is
missing; otherwise take each ticker's first price on or after the start
date, optionally convert it to the target currency, allocate
`normalized_weight * initial_capital`, derive implied shares, and project
`implied_shares * close` over the whole price history.  Implied-share
division uses exact rationals; no theorem below relies on its
division-by-zero behaviour. -/
def calculate_weighted (p : Portfolio) (df_prices : List WPriceRow)
    (fx : Option FXEngine) : Except String (List WRow) :=
  match p.start_date with
  | none => Except.error "Portfolio start_date is required for weighted strategy"
  | some sd =>
    let eligible := df_prices.filter (fun r => sd ≤ r.date)
    let sortedE := List.insertionSort (leByDate (fun r : WPriceRow => r.date)) eligible
    let df_start := firstPerTicker sortedE
    if df_start.isEmpty then Except.ok [] else
    let adjusted : List (String × Option ℚ) :=
      match fx with
      | some e =>
        (convert_to_target e (df_start.map
            (fun r => AmtRow.mk r.date r.currency r.close r.ticker))).map
          (fun c => (c.ticker, c.converted))
      | none => df_start.map (fun r => (r.ticker, some r.close))
    let capital := p.initial_capital.getD 0
    let tickers := p.positions.map (fun pos => pos.ticker)
    let normWs := normalizeWeights (p.positions.map (fun pos => pos.weight.getD 0))
    let dfShares : List (String × Option ℚ × ℚ) :=
      (tickers.zip normWs).map (fun tw =>
        (tw.1, ((adjusted.lookup tw.1).bind id).map (fun sp => tw.2 * capital / sp), tw.2))
    Except.ok (df_prices.map (fun r =>
      let entry := dfShares.lookup r.ticker
      let sh : Option ℚ := entry.bind (fun t => t.1)
      { date := r.date
        ticker := r.ticker
        position_value := sh.map (fun s => s * r.close)
        currency := r.currency
        implied_shares := sh
        weight := entry.map (fun t => t.2)
        position_dividend_yoy :=
          match sh, r.rolling_dividend_sum with
          | some s, some d => some (s * d)
          | _, _ => none }))

/-! ### Concrete example inputs used by witnesses and counterexamples -/

/-- A fundamentals row whose capital employed is exactly zero. -/
def exFundRowZeroCE : FundRow :=
  { ticker := "XYZ"
    total_assets := some (.finite 100)
    total_current_liabilities := some (.finite 100)
    total_equity := none
    total_debt := none
    long_term_debt := none
    short_term_debt := none
    cash_and_equivalents := none
    goodwill := none
    intangible_assets := none
    goodwill_and_intangible_assets := none
    operating_cash_flow := none
    capital_expenditure := none
    free_cash_flow := none
    revenue := none
    gross_profit := none
    ebit := some (.finite 50)
    net_income := none
    interest_expense := none }

/-- A fundamentals row with a regular (non-zero) capital employed. -/
def exFundRowRegular : FundRow :=
  { exFundRowZeroCE with
    total_assets := some (.finite 120)
    total_current_liabilities := some (.finite 100) }

/-- A pence-denominated row on a non-LSE ticker. -/
def exMonRowNoLse : MonetaryRow :=
  { ticker := "ABC", currency := "GBp", vals := [("close", 100)] }

/-- A pence-denominated row on an LSE ticker. -/
def exMonRowLse : MonetaryRow :=
  { ticker := "VOD.L", currency := "GBp", vals := [("close", 100)] }

/-- A weighted raw configuration whose `start_date` key is explicitly null. -/
def exRawNullStart : RawPortfolio :=
  { name := "w"
    ptype := PType.weighted
    start_date := some none
    initial_capital := some (some 1000)
    positions := [{ ticker := "A", weight := some 1, shares := none }] }

/-- A weighted raw configuration that omits the `initial_capital` key while
carrying a valid start date and weights. -/
def exRawOmittedCapital : RawPortfolio :=
  { name := "w2"
    ptype := PType.weighted
    start_date := some (some 10)
    initial_capital := none
    positions := [{ ticker := "A", weight := some 1, shares := none }] }

/-- The model instance `exRawOmittedCapital` validates to: `initial_capital`
is `None`. -/
def exDegradedPortfolio : Portfolio :=
  { name := "w2"
    ptype := PType.weighted
    start_date := some 10
    initial_capital := none
    positions := [{ ticker := "A", weight := some 1, shares := none }] }

/-- Two price rows for the degraded weighted history. -/
def exWPrices : List WPriceRow :=
  [{ ticker := "A", date := 10, close := 50, currency := "EUR",
     rolling_dividend_sum := some 0 },
   { ticker := "A", date := 20, close := 60, currency := "EUR",
     rolling_dividend_sum := some 0 }]

/-- The FX engine of the spec scenario: USD rates 1.10 on day 0
(2024-01-01) and 1.05 on day 31 (2024-02-01). -/
def exFXEngine : FXEngine :=
  { target_currency := "EUR"
    fx_rates := [("USD", [{ rdate := 0, rate := 11 / 10 }, { rdate := 31, rate := 21 / 20 }])] }

/-- The USD rate series of `exFXEngine`. -/
def exUsdSeries : List RatePoint :=
  [{ rdate := 0, rate := 11 / 10 }, { rdate := 31, rate := 21 / 20 }]

/-- A USD row dated before the earliest available USD rate. -/
def exEarlyRow : AmtRow :=
  { date := -5, currency := "USD", amount := 100, ticker := "ACME" }

/-- One quarterly report of the TTM scenario: only the revenue flow and the
total_assets point column carry values. -/
def exQRow (d : ℤ) (rev : ℚ) : QRow :=
  { ticker := "TT"
    report_date := d
    flows := fun f => match f with | .revenue => some rev | _ => none
    points := fun p => match p with | .total_assets => some (rev * 2) | _ => none
    currency := "EUR"
    period_type := "quarterly" }

/-- The TTM scenario input: five quarters of revenue 100..140 at 91-day
spacing. -/
def exQ : List QRow :=
  [exQRow 0 100, exQRow 91 110, exQRow 182 120, exQRow 273 130, exQRow 364 140]

/-- A throwaway TTM row used as the `getD` default in witnesses. -/
def dummyTTMRow : TTMRow :=
  { ticker := ""
    report_date := 0
    flows_ttm := fun _ => 0
    points_ttm := fun _ => none
    currency := none
    period_type := none }

/-- A single price row for the hybrid-merge witnesses. -/
def exVPrices : List PriceRow :=
  [{ ticker := "AAA", date := 100, close := 10, currency := "EUR" }]

/-- An annual projection row preceding the price date. -/
def exVAnnual : List AnnualProj :=
  [{ ticker := "AAA", report_date := 50, eps_annual := some 2,
     revenue_annual := some 1000, fcf_annual := some 100,
     shares_annual := some 10, dividend_annual := some 5 }]

/-- A fresher TTM projection row preceding the price date. -/
def exVTTM : List TTMProj :=
  [{ ticker := "AAA", report_date := 80, net_income_ttm := some 30,
     eps_ttm := some 3, revenue_ttm := some 1100, fcf_ttm := some 110,
     shares_ttm := some 10 }]

/-- A throwaway valuation row used as the `getD` default in witnesses. -/
def dummyVRow : ValuationRow :=
  enrichRow { ticker := "", date := 0, close := 0, currency := "" } none none

/-! ## Theorems -/

/-! ### Generic cell lemmas -/

/-- A null left operand nullifies any cell operation. -/
theorem cellMap2_none_left (f : FVal → FVal → FVal) (x : FCell) :
    cellMap2 f none x = none := by
  cases x <;> rfl

/-- A null right operand nullifies any cell operation. -/
theorem cellMap2_none_right (f : FVal → FVal → FVal) (x : FCell) :
    cellMap2 f x none = none := by
  cases x <;> rfl

/-! ### Claim C1 -/

/-- Claim C1, counterexample: at a row with non-null `ebit = 50` and non-null
`capital_employed = 0`, `roce` is `+inf`, not null — the division by zero is
propagated as a non-finite Float64 value, contradicting the claim that it is
normalized to null. -/
theorem roce_zero_capital_counterexample :
    capital_employed exFundRowZeroCE = some (FVal.finite 0) ∧
    exFundRowZeroCE.ebit = some (FVal.finite 50) ∧
    roce exFundRowZeroCE = some FVal.pinf ∧
    roce exFundRowZeroCE ≠ none := by
  refine ⟨by with_unfolding_all decide, by with_unfolding_all decide,
    by with_unfolding_all decide, by with_unfolding_all decide⟩

/-- Claim C1 (amended): `roce = ebit / capital_employed` as an unguarded
Float64 division — null exactly when an operand is null, the exact quotient
when the denominator is finite and non-zero, and a propagated non-finite
value (`±inf` or `NaN`, never null) when the denominator is zero. -/
theorem roce_ieee_division (r : FundRow) :
    (r.ebit = none ∨ capital_employed r = none → roce r = none) ∧
    (∀ a c : ℚ, r.ebit = some (.finite a) → capital_employed r = some (.finite c) →
      c ≠ 0 → roce r = some (.finite (a / c))) ∧
    (∀ a : ℚ, r.ebit = some (.finite a) → capital_employed r = some (.finite 0) →
      roce r = some (if a = 0 then FVal.nan else if 0 < a then FVal.pinf else FVal.ninf) ∧
        roce r ≠ none) := by
  refine ⟨?_, ?_, ?_⟩
  · rintro (h | h)
    · simp [roce, fdivC, h, cellMap2_none_left]
    · simp [roce, fdivC, h, cellMap2_none_right]
  · intro a c ha hc hne
    simp [roce, fdivC, ha, hc, cellMap2, FVal.div, hne]
  · intro a ha hc
    refine ⟨by simp [roce, fdivC, ha, hc, cellMap2, FVal.div], ?_⟩
    simp [roce, fdivC, ha, hc, cellMap2]

/-- Claim C1 witness: on a row with `ebit = 50` and `capital_employed = 20`,
the amended theorem yields the exact ratio `5/2`. -/
theorem roce_ieee_division_witness :
    roce exFundRowRegular = some (FVal.finite (5 / 2)) := by
  have h := (roce_ieee_division exFundRowRegular).2.1 50 20
    (by with_unfolding_all decide) (by with_unfolding_all decide)
    (by with_unfolding_all decide)
  rw [h]
  norm_num

/-! ### Claim C8 -/

/-- Claim C8, counterexample: a `"GBp"` row whose ticker does not end in
`".L"` is not left unchanged — its currency is rewritten to `"GBP"` (while
its monetary columns stay), so the currency rewrite is not gated on the LSE
suffix. -/
theorem pound_fix_counterexample :
    strEndsWith exMonRowNoLse.ticker ".L" = false ∧
    exMonRowNoLse.currency = "GBp" ∧
    (pound_fix_row ["close"] exMonRowNoLse).currency = "GBP" ∧
    (pound_fix_row ["close"] exMonRowNoLse).vals = exMonRowNoLse.vals ∧
    pound_fix_row ["close"] exMonRowNoLse ≠ exMonRowNoLse := by
  refine ⟨by with_unfolding_all decide, by with_unfolding_all decide,
    by with_unfolding_all decide, by with_unfolding_all decide,
    by with_unfolding_all decide⟩

/-- Claim C8 (amended): the monetary columns are divided by 100 exactly when
the currency is `"GBp"` and the ticker ends in `".L"`; the currency code is
rewritten to `"GBP"` whenever it is `"GBp"`, regardless of the ticker; rows
whose currency is not `"GBp"` are left entirely unchanged. -/
theorem pound_fix_row_semantics (cols : List String) (r : MonetaryRow) :
    (pound_fix_row cols r).ticker = r.ticker ∧
    (r.currency = "GBp" → (pound_fix_row cols r).currency = "GBP") ∧
    (r.currency = "GBp" → strEndsWith r.ticker ".L" = true →
      (pound_fix_row cols r).vals =
        r.vals.map (fun cv => if cv.1 ∈ cols then (cv.1, cv.2 / 100) else cv)) ∧
    (¬ (r.currency = "GBp" ∧ strEndsWith r.ticker ".L" = true) →
      (pound_fix_row cols r).vals = r.vals) ∧
    (r.currency ≠ "GBp" → pound_fix_row cols r = r) := by
  refine ⟨rfl, ?_, ?_, ?_, ?_⟩
  · intro h
    simp [pound_fix_row, h]
  · intro h1 h2
    simp [pound_fix_row, h1, h2]
  · intro h
    rcases not_and_or.mp h with h1 | h2
    · simp [pound_fix_row, h1]
    · simp [pound_fix_row, h2]
  · intro h
    cases r with
    | mk t c v => simp_all [pound_fix_row]

/-- Claim C8 witness: on an LSE pence row the correction divides the close
column by 100 and rewrites the currency. -/
theorem pound_fix_row_semantics_witness :
    (pound_fix_row ["close"] exMonRowLse).vals = [("close", 1)] ∧
    (pound_fix_row ["close"] exMonRowLse).currency = "GBP" := by
  have h := pound_fix_row_semantics ["close"] exMonRowLse
  refine ⟨?_, h.2.1 (by with_unfolding_all decide)⟩
  rw [h.2.2.1 (by with_unfolding_all decide) (by with_unfolding_all decide)]
  with_unfolding_all decide

/-! ### Claim C9 -/

/-- Summing a list divided elementwise by a constant divides the sum. -/
theorem sum_map_div (l : List ℚ) (s : ℚ) :
    (l.map (fun w => w / s)).sum = l.sum / s := by
  induction l with
  | nil => simp
  | cons a t ih => simp [ih, add_div]

/-- Claim C9: the weight normalisation of the weighted strategy
(`weight / weight.sum()`) makes the weights sum to exactly 1 whenever the
declared weights have a positive sum, regardless of scale. -/
theorem normalized_weights_sum_one (ws : List ℚ) (h : 0 < ws.sum) :
    (normalizeWeights ws).sum = 1 := by
  unfold normalizeWeights
  rw [sum_map_div]
  exact div_self (ne_of_gt h)

/-- Claim C9 witness: declared weights `[2, 1, 1]` normalise to
`[1/2, 1/4, 1/4]`, which sum to 1. -/
theorem normalized_weights_sum_one_witness :
    (normalizeWeights [2, 1, 1]).sum = 1 ∧
    normalizeWeights [2, 1, 1] = [1 / 2, 1 / 4, 1 / 4] :=
  ⟨normalized_weights_sum_one [2, 1, 1] (by with_unfolding_all decide),
    by with_unfolding_all decide⟩

/-! ### Claim C2 -/

set_option maxRecDepth 100000 in
set_option maxHeartbeats 2000000 in
/-- Claim C2, counterexample: a weighted configuration that omits the
`initial_capital` key validates successfully (pydantic v2 skips the field
validators of an omitted defaulted field) and the weighted calculation then
returns a degraded all-zero history — `Except.ok`, not an error — via
`initial_capital or 0.0`. -/
theorem weighted_omitted_capital_counterexample :
    exRawOmittedCapital.ptype = PType.weighted ∧
    exRawOmittedCapital.initial_capital = none ∧
    validatePortfolio exRawOmittedCapital = Except.ok exDegradedPortfolio ∧
    exDegradedPortfolio.initial_capital = none ∧
    calculate_weighted exDegradedPortfolio exWPrices none =
      Except.ok
        [{ date := 10, ticker := "A", position_value := some 0, currency := "EUR",
           implied_shares := some 0, weight := some 1, position_dividend_yoy := some 0 },
         { date := 20, ticker := "A", position_value := some 0, currency := "EUR",
           implied_shares := some 0, weight := some 1, position_dividend_yoy := some 0 }] := by
  refine ⟨rfl, rfl, ?_, rfl, ?_⟩
  · with_unfolding_all rfl
  · with_unfolding_all rfl

set_option maxHeartbeats 2000000 in
/-- Claim C2 (amended): a WEIGHTED portfolio lacking `start_date` raises — at
validation when the key is explicitly null, and inside the weighted strategy
when the model value is absent.  An explicitly-null `initial_capital` is
likewise rejected at validation; but a configuration that omits the
`initial_capital` key constructs (pydantic v2 skips field validators on
omitted defaults) and the strategy never raises once a start date is
present, degrading to a zero-capital history instead. -/
theorem weighted_config_error_semantics :
    (∀ p : RawPortfolio, p.ptype = PType.weighted → p.start_date = some none →
      ∃ msg, validatePortfolio p = Except.error msg) ∧
    (∀ p : RawPortfolio, p.ptype = PType.weighted → p.initial_capital = some none →
      ∃ msg, validatePortfolio p = Except.error msg) ∧
    (∀ (p : Portfolio) (df : List WPriceRow) (fx : Option FXEngine),
      p.start_date = none →
        calculate_weighted p df fx =
          Except.error "Portfolio start_date is required for weighted strategy") ∧
    (∀ (p : Portfolio) (df : List WPriceRow) (fx : Option FXEngine) (sd : ℤ),
      p.start_date = some sd → ∃ out, calculate_weighted p df fx = Except.ok out) := by
  refine ⟨?_, ?_, ?_, ?_⟩
  · intro p hw hnull
    unfold validatePortfolio
    split_ifs <;> try exact ⟨_, rfl⟩
    tauto
  · intro p hw hnull
    unfold validatePortfolio
    split_ifs <;> try exact ⟨_, rfl⟩
    tauto
  · intro p df fx h
    simp [calculate_weighted, h]
  · intro p df fx sd h
    simp only [calculate_weighted, h]
    split
    · exact ⟨[], rfl⟩
    · exact ⟨_, rfl⟩

/-- Claim C2 witness: an explicitly-null start date is rejected at
validation, while the zero-capital portfolio with a present start date
produces a result instead of an error. -/
theorem weighted_config_error_semantics_witness :
    (∃ msg, validatePortfolio exRawNullStart = Except.error msg) ∧
    (∃ out, calculate_weighted exDegradedPortfolio exWPrices none = Except.ok out) :=
  ⟨weighted_config_error_semantics.1 exRawNullStart rfl rfl,
    weighted_config_error_semantics.2.2.2 exDegradedPortfolio exWPrices none 10 rfl⟩

/-! ### List helper lemmas shared by the FX and TTM proofs -/

/-- The last element of a list is a member. -/
theorem mem_of_getLast?_eq {α : Type} {l : List α} {x : α}
    (h : l.getLast? = some x) : x ∈ l := by
  obtain ⟨hne, hx⟩ := List.mem_getLast?_eq_getLast (show x ∈ l.getLast? by simp [h])
  exact hx ▸ List.getLast_mem hne

/-! ### Claim C7 -/

/-- Claim C7: `convert_amount` returns the amount unchanged when the source
currency is the target, when the currency has no rate series, or when no
rate exists on or before the date; otherwise it divides the amount by the
most recent rate on or before the date (the series carrying strictly
ascending dates, as `_extract_rates` produces). -/
theorem convert_amount_spec (e : FXEngine) (amount : ℚ) (d : ℤ) (src : String) :
    (src = e.target_currency → convert_amount e amount d src = amount) ∧
    (src ≠ e.target_currency → lookupRates e src = none →
      convert_amount e amount d src = amount) ∧
    (∀ series, src ≠ e.target_currency → lookupRates e src = some series →
      (∀ p ∈ series, ¬ p.rdate ≤ d) → convert_amount e amount d src = amount) ∧
    (∀ series p, src ≠ e.target_currency → lookupRates e src = some series →
      series.Pairwise (fun a b => a.rdate < b.rdate) →
      p ∈ series → p.rdate ≤ d →
      (∀ q ∈ series, q.rdate ≤ d → q.rdate ≤ p.rdate) →
      convert_amount e amount d src = amount / p.rate) := by
  refine ⟨?_, ?_, ?_, ?_⟩
  · intro h
    simp [convert_amount, h]
  · intro h1 h2
    simp [convert_amount, h1, h2]
  · intro series h1 h2 h3
    have hfil : series.filter (fun p => p.rdate ≤ d) = [] := by
      rw [List.filter_eq_nil_iff]
      intro p hp
      simpa using h3 p hp
    simp [convert_amount, h1, h2, hfil]
  · intro series p h1 h2 hasc hpmem hpd hpmax
    have hpfil : p ∈ series.filter (fun q => q.rdate ≤ d) := by
      rw [List.mem_filter]
      exact ⟨hpmem, by simpa using hpd⟩
    set sortedF := List.insertionSort (descByDate (fun q : RatePoint => q.rdate))
      (series.filter (fun q => q.rdate ≤ d)) with hsortedF
    have hpsort : p ∈ sortedF := by
      rw [hsortedF, List.mem_insertionSort]
      exact hpfil
    obtain ⟨h0, rest, hcons⟩ : ∃ h0 rest, sortedF = h0 :: rest := by
      cases hs : sortedF with
      | nil => rw [hs] at hpsort; cases hpsort
      | cons a t => exact ⟨a, t, rfl⟩
    have hsorted : sortedF.Sorted (descByDate (fun q : RatePoint => q.rdate)) :=
      List.sorted_insertionSort _ _
    have h0fil : h0 ∈ series.filter (fun q => q.rdate ≤ d) := by
      rw [← List.mem_insertionSort (r := descByDate (fun q : RatePoint => q.rdate)),
        ← hsortedF, hcons]
      exact List.mem_cons_self _ _
    have h0mem : h0 ∈ series := (List.mem_filter.mp h0fil).1
    have h0d : h0.rdate ≤ d := by simpa using (List.mem_filter.mp h0fil).2
    have hple : p.rdate ≤ h0.rdate := by
      rw [hcons] at hpsort hsorted
      rcases List.mem_cons.mp hpsort with he | ht
      · rw [he]
      · exact List.rel_of_sorted_cons hsorted p ht
    have h0le : h0.rdate ≤ p.rdate := hpmax h0 h0mem h0d
    have hdeq : h0.rdate = p.rdate := le_antisymm h0le hple
    have hne : h0 = p := by
      by_contra hcontra
      exact (List.Pairwise.forall (fun a b h => h.symm)
        (hasc.imp (fun hab => ne_of_lt hab)) h0mem hpmem hcontra) hdeq
    have hhead : sortedF.head? = some p := by
      rw [hcons, List.head?_cons, hne]
    simp only [convert_amount, if_neg h1, h2, ← hsortedF, hhead]

/-- Claim C7 witness: the spec scenario — USD rates 1.10 (day 0) and 1.05
(day 31); converting 100 USD on day 14 uses the day-0 rate and yields
1000/11 ≈ 90.91. -/
theorem convert_amount_spec_witness :
    convert_amount exFXEngine 100 14 "USD" = 1000 / 11 := by
  have h := (convert_amount_spec exFXEngine 100 14 "USD").2.2.2 exUsdSeries
    { rdate := 0, rate := 11 / 10 }
    (by with_unfolding_all decide) (by with_unfolding_all decide)
    (by with_unfolding_all decide) (by with_unfolding_all decide)
    (by with_unfolding_all decide) (by with_unfolding_all decide)
  rw [h]
  norm_num

/-! ### Claim C10 -/

/-- Claim C10: in `convert_to_target`, a row in a supported foreign currency
whose date precedes every rate date of that currency's series gets a null
converted column (the backward asof join misses), while the row itself stays
in the output. -/
theorem convert_to_target_early_date_null (e : FXEngine) (df : List AmtRow)
    (cur : String) (series : List RatePoint) (r : AmtRow)
    (hkey : (cur, series) ∈ e.fx_rates) (hr : r ∈ df) (hcur : r.currency = cur)
    (hne : cur ≠ e.target_currency) (hearly : ∀ p ∈ series, r.date < p.rdate) :
    ∃ c ∈ convert_to_target e df,
      c.date = r.date ∧ c.currency = r.currency ∧ c.amount = r.amount ∧
      c.ticker = r.ticker ∧ c.converted = none := by
  have hnone : asofRate series r.date = none := by
    have hfil : series.filter (fun p => p.rdate ≤ r.date) = [] := by
      rw [List.filter_eq_nil_iff]
      intro p hp
      simpa using not_le.mpr (hearly p hp)
    simp [asofRate, hfil]
  refine ⟨ConvRow.mk r.date r.currency r.amount r.ticker none, ?_, rfl, rfl, rfl, rfl, rfl⟩
  unfold convert_to_target
  rw [List.mem_insertionSort]
  apply List.mem_append.mpr
  refine Or.inl (List.mem_append.mpr (Or.inr ?_))
  rw [List.mem_flatten]
  refine ⟨(List.insertionSort (leByDate (fun a : AmtRow => a.date))
      ((df.filter (fun a => a.currency ≠ e.target_currency)).filter
        (fun a => a.currency = (cur, series).1))).map
    (fun a => ConvRow.mk a.date a.currency a.amount a.ticker
      ((asofRate (cur, series).2 a.date).map (fun rt => a.amount / rt))), ?_, ?_⟩
  · exact List.mem_map.mpr ⟨(cur, series), hkey, rfl⟩
  · refine List.mem_map.mpr ⟨r, ?_, ?_⟩
    · rw [List.mem_insertionSort, List.mem_filter, List.mem_filter]
      refine ⟨⟨hr, ?_⟩, by simpa using hcur⟩
      simpa using hcur ▸ hne
    · simp [hnone]

/-- Claim C10 witness: a USD row on day -5 — before the first USD rate on
day 0 — survives conversion with a null converted amount. -/
theorem convert_to_target_early_date_null_witness :
    ∃ c ∈ convert_to_target exFXEngine [exEarlyRow],
      c.date = exEarlyRow.date ∧ c.currency = exEarlyRow.currency ∧
      c.amount = exEarlyRow.amount ∧ c.ticker = exEarlyRow.ticker ∧
      c.converted = none :=
  convert_to_target_early_date_null exFXEngine [exEarlyRow] "USD" exUsdSeries
    exEarlyRow (by with_unfolding_all decide) (List.mem_singleton.mpr rfl) rfl
    (by with_unfolding_all decide) (by with_unfolding_all decide)

/-! ### TTM helper lemmas -/

/-- Unpack membership in the TTM output: every emitted row is the aggregation
of some sorted cleaned input row's window and passed the coverage filter. -/
theorem mem_ttm_elim (rows : List QRow) (t : TTMRow)
    (ht : t ∈ calculate_ttm_history rows) :
    ∃ r ∈ sortQ (cleanRows rows),
      t = dropCount (aggWindow r.ticker r.report_date
        (ttmWindow (sortQ (cleanRows rows)) r.ticker r.report_date)) ∧
      4 ≤ (ttmWindow (sortQ (cleanRows rows)) r.ticker r.report_date).length := by
  unfold calculate_ttm_history at ht
  split at ht
  · exact absurd ht (List.not_mem_nil t)
  split at ht
  · exact absurd ht (List.not_mem_nil t)
  obtain ⟨a, ha, hdt⟩ := List.mem_map.mp ht
  obtain ⟨hamem, hcount⟩ := List.mem_filter.mp ha
  obtain ⟨r, hr, har⟩ := List.mem_map.mp hamem
  refine ⟨r, hr, ?_, ?_⟩
  · rw [← hdt, ← har]
  · have h4 : 4 ≤ a.record_count := by simpa using hcount
    rw [← har] at h4
    simpa [aggWindow] using h4

/-- The rows of a TTM window appear in ascending report_date order. -/
theorem window_date_pairwise (rows : List QRow) (tk : String) (d : ℤ) :
    (ttmWindow (sortQ (cleanRows rows)) tk d).Pairwise
      (fun a b => a.report_date ≤ b.report_date) := by
  have hsorted : (sortQ (cleanRows rows)).Pairwise
      (leByKey (fun r : QRow => (r.ticker, r.report_date))) :=
    List.sorted_insertionSort _ _
  unfold ttmWindow
  refine List.Pairwise.imp_of_mem ?_ (hsorted.filter _)
  intro a b ha hb hab
  have hta : a.ticker = tk := by
    have := (List.mem_filter.mp ha).2
    exact (by simpa using this : a.ticker = tk ∧ _).1
  have htb : b.ticker = tk := by
    have := (List.mem_filter.mp hb).2
    exact (by simpa using this : b.ticker = tk ∧ _).1
  rcases hab with hlt | ⟨_, hle⟩
  · have hlt2 : a.ticker < b.ticker := hlt
    rw [hta, htb] at hlt2
    exact absurd hlt2 (lt_irrefl tk)
  · exact hle

/-- In a date-ascending list the last element carries the maximal date. -/
theorem getLast_date_max : ∀ (l : List QRow) (rl : QRow),
    l.Pairwise (fun a b => a.report_date ≤ b.report_date) →
    l.getLast? = some rl → ∀ r ∈ l, r.report_date ≤ rl.report_date := by
  intro l
  induction l with
  | nil => intro rl _ hl; simp at hl
  | cons a tl ih =>
    intro rl hp hl r hr
    cases tl with
    | nil =>
      have hra : rl = a := by simpa using hl.symm
      have hr2 : r = a := by simpa using hr
      rw [hra, hr2]
    | cons b t2 =>
      have hl2 : (b :: t2).getLast? = some rl := by
        rw [← List.getLast?_cons_cons (l := t2) (a := a) (b := b)]
        exact hl
      rcases List.mem_cons.mp hr with he | htl
      · rw [he]
        exact List.rel_of_pairwise_cons hp (mem_of_getLast?_eq hl2)
      · exact ih rl hp.of_cons hl2 r htl

/-! ### Claim C3 -/

/-- Claim C3: every row emitted by `calculate_ttm_history` is backed by at
least 4 cleaned quarterly rows, and every backing row of its window shares
the ticker and has its report_date in the right-closed 395-day interval
ending at the emitted row's report_date. -/
theorem ttm_coverage_gate (rows : List QRow) (t : TTMRow)
    (ht : t ∈ calculate_ttm_history rows) :
    4 ≤ (ttmWindow (sortQ (cleanRows rows)) t.ticker t.report_date).length ∧
    ∀ r ∈ ttmWindow (sortQ (cleanRows rows)) t.ticker t.report_date,
      r.ticker = t.ticker ∧ t.report_date - 395 < r.report_date ∧
        r.report_date ≤ t.report_date := by
  obtain ⟨r0, _, heq, hlen⟩ := mem_ttm_elim rows t ht
  have htick : t.ticker = r0.ticker := by rw [heq]; rfl
  have hdate : t.report_date = r0.report_date := by rw [heq]; rfl
  constructor
  · rw [htick, hdate]
    exact hlen
  · intro r hrmem
    rw [htick, hdate] at hrmem ⊢
    have := (List.mem_filter.mp hrmem).2
    simpa using this

set_option maxRecDepth 100000 in
/-- Claim C3 witness: on the five-quarter scenario input, the first emitted
TTM row (at day 273) has a window of at least four backing rows. -/
theorem ttm_coverage_gate_witness :
    4 ≤ (ttmWindow (sortQ (cleanRows exQ))
      ((calculate_ttm_history exQ).getD 0 dummyTTMRow).ticker
      ((calculate_ttm_history exQ).getD 0 dummyTTMRow).report_date).length := by
  have hmem : (calculate_ttm_history exQ).getD 0 dummyTTMRow ∈
      calculate_ttm_history exQ := by
    with_unfolding_all decide
  exact (ttm_coverage_gate exQ _ hmem).1

/-! ### Claim C4 -/

/-- Claim C4: each emitted TTM row's flow values are the sum of exactly the
last four window values of that flow field, and its point values equal the
field of the window row with the maximal report_date (the most recent
quarterly row in the window). -/
theorem ttm_flow_point_semantics (rows : List QRow) (t : TTMRow)
    (ht : t ∈ calculate_ttm_history rows) :
    (∀ f, t.flows_ttm f =
      plSum (plTail4 ((ttmWindow (sortQ (cleanRows rows)) t.ticker t.report_date).map
        (fun r => r.flows f)))) ∧
    (∀ f, (plTail4 ((ttmWindow (sortQ (cleanRows rows)) t.ticker t.report_date).map
        (fun r => r.flows f))).length = 4) ∧
    (∃ rl, (ttmWindow (sortQ (cleanRows rows)) t.ticker t.report_date).getLast? = some rl ∧
      (∀ r ∈ ttmWindow (sortQ (cleanRows rows)) t.ticker t.report_date,
        r.report_date ≤ rl.report_date) ∧
      (∀ p, t.points_ttm p = rl.points p)) := by
  obtain ⟨r0, _, heq, hlen⟩ := mem_ttm_elim rows t ht
  have htick : t.ticker = r0.ticker := by rw [heq]; rfl
  have hdate : t.report_date = r0.report_date := by rw [heq]; rfl
  refine ⟨?_, ?_, ?_⟩
  · intro f
    rw [htick, hdate, heq]
    rfl
  · intro f
    rw [htick, hdate]
    simp only [plTail4, List.length_drop, List.length_map]
    omega
  · rw [htick, hdate]
    obtain ⟨rl, hrl⟩ : ∃ rl,
        (ttmWindow (sortQ (cleanRows rows)) r0.ticker r0.report_date).getLast? = some rl := by
      cases hgl : (ttmWindow (sortQ (cleanRows rows)) r0.ticker r0.report_date).getLast? with
      | none =>
        rw [List.getLast?_eq_none_iff] at hgl
        rw [hgl] at hlen
        simp at hlen
      | some x => exact ⟨x, rfl⟩
    refine ⟨rl, hrl, getLast_date_max _ rl (window_date_pairwise rows _ _) hrl, ?_⟩
    intro p
    rw [heq]
    show plLast _ = rl.points p
    rw [plLast, List.getLast?_map, hrl]
    rfl

set_option maxRecDepth 100000 in
/-- Claim C4 witness: the spec scenario — quarterly revenue
`[100, 110, 120, 130, 140]` yields TTM revenue `110+120+130+140 = 500` at the
fifth quarter end (day 364). -/
theorem ttm_flow_point_semantics_witness :
    ((calculate_ttm_history exQ).getD 1 dummyTTMRow).flows_ttm FlowName.revenue = 500 ∧
    ((calculate_ttm_history exQ).getD 1 dummyTTMRow).report_date = 364 := by
  have hmem : (calculate_ttm_history exQ).getD 1 dummyTTMRow ∈
      calculate_ttm_history exQ := by
    with_unfolding_all decide
  have h := (ttm_flow_point_semantics exQ _ hmem).1 FlowName.revenue
  constructor
  · rw [h]
    with_unfolding_all decide
  · with_unfolding_all decide

/-! ### Valuation merge helper lemmas -/

/-- Field projections of `enrichRow` relevant to the source/lag claims. -/
theorem enrichRow_fields (p : PriceRow) (a? : Option AnnualProj)
    (t? : Option TTMProj) :
    (enrichRow p a? t?).date = p.date ∧
    (enrichRow p a? t?).eps_ttm = t?.bind (fun t => t.eps_ttm) ∧
    (enrichRow p a? t?).eps_annual = a?.bind (fun a => a.eps_annual) ∧
    (enrichRow p a? t?).metric_date =
      coalesce2 (t?.map (fun t => t.report_date)) (a?.map (fun a => a.report_date)) ∧
    (enrichRow p a? t?).data_lag_days =
      (coalesce2 (t?.map (fun t => t.report_date))
        (a?.map (fun a => a.report_date))).map (fun m => p.date - m) ∧
    (enrichRow p a? t?).valuation_source =
      (if (t?.bind (fun t => t.eps_ttm)).isSome then "TTM"
       else if (a?.bind (fun a => a.eps_annual)).isSome then "Annual" else "N/A") :=
  ⟨rfl, rfl, rfl, rfl, rfl, rfl⟩

/-- A matched TTM asof row shares the ticker and does not postdate the price
date. -/
theorem asofTTM_le (qt : List TTMProj) (tk : String) (d : ℤ) (t : TTMProj)
    (h : asofTTM qt tk d = some t) : t.ticker = tk ∧ t.report_date ≤ d := by
  have hmem := mem_of_getLast?_eq h
  have := (List.mem_filter.mp hmem).2
  simpa using this

/-- A matched annual asof row shares the ticker and does not postdate the
price date. -/
theorem asofAnnual_le (qa : List AnnualProj) (tk : String) (d : ℤ) (a : AnnualProj)
    (h : asofAnnual qa tk d = some a) : a.ticker = tk ∧ a.report_date ≤ d := by
  have hmem := mem_of_getLast?_eq h
  have := (List.mem_filter.mp hmem).2
  simpa using this

/-! ### Claim C5 -/

/-- Claim C5: whenever both eps candidates resolve through the backward asof
joins, the hybrid merge labels the row `"TTM"` and uses the TTM eps (not the
annual one) as the coalesced eps; with only the annual eps present the label
is `"Annual"`, and `"N/A"` with neither. -/
theorem hybrid_merge_prefers_ttm (prices : List PriceRow) (qa : List AnnualProj)
    (qt : List TTMProj) (v : ValuationRow) (hv : v ∈ valuationMerge prices qa qt) :
    (v.eps_ttm.isSome → v.eps_annual.isSome →
      v.valuation_source = "TTM" ∧ eps_value v = v.eps_ttm) ∧
    (v.eps_ttm = none → v.eps_annual.isSome → v.valuation_source = "Annual") ∧
    (v.eps_ttm = none → v.eps_annual = none → v.valuation_source = "N/A") := by
  obtain ⟨p, _, hvp⟩ := List.mem_map.mp hv
  obtain ⟨_, hepsT, hepsA, _, _, hsrc⟩ := enrichRow_fields p
    (asofAnnual (List.insertionSort (leByDate (fun a : AnnualProj => a.report_date)) qa)
      p.ticker p.date)
    (asofTTM (List.insertionSort (leByDate (fun t : TTMProj => t.report_date)) qt)
      p.ticker p.date)
  rw [hvp] at hepsT hepsA hsrc
  refine ⟨?_, ?_, ?_⟩
  · intro h1 h2
    constructor
    · rw [hsrc, ← hepsT, if_pos h1]
    · rw [eps_value]
      obtain ⟨x, hx⟩ := Option.isSome_iff_exists.mp h1
      rw [hx]
      rfl
  · intro h1 h2
    rw [hsrc, ← hepsT, ← hepsA, h1, if_neg (by simp), if_pos h2]
  · intro h1 h2
    rw [hsrc, ← hepsT, ← hepsA, h1, h2, if_neg (by simp), if_neg (by simp)]

set_option maxRecDepth 100000 in
/-- Claim C5 witness: with an annual record (eps 2, day 50) and a TTM record
(eps 3, day 80) both resolving for the price row at day 100, the source is
`"TTM"` and the coalesced eps is the TTM one. -/
theorem hybrid_merge_prefers_ttm_witness :
    ((valuationMerge exVPrices exVAnnual exVTTM).getD 0 dummyVRow).valuation_source = "TTM" ∧
    eps_value ((valuationMerge exVPrices exVAnnual exVTTM).getD 0 dummyVRow) = some 3 := by
  have hmem : (valuationMerge exVPrices exVAnnual exVTTM).getD 0 dummyVRow ∈
      valuationMerge exVPrices exVAnnual exVTTM := by
    with_unfolding_all decide
  have h := (hybrid_merge_prefers_ttm exVPrices exVAnnual exVTTM _ hmem).1
    (by with_unfolding_all decide) (by with_unfolding_all decide)
  refine ⟨h.1, ?_⟩
  rw [h.2]
  with_unfolding_all decide

/-! ### Claim C6 -/

/-- Claim C6: in the merge output, every row with a non-null `metric_date`
has `data_lag_days = date - metric_date ≥ 0`, because both backward asof
joins only attach records whose report_date is on or before the price date. -/
theorem data_lag_nonneg (prices : List PriceRow) (qa : List AnnualProj)
    (qt : List TTMProj) (v : ValuationRow) (hv : v ∈ valuationMerge prices qa qt)
    (m : ℤ) (hm : v.metric_date = some m) :
    v.data_lag_days = some (v.date - m) ∧ m ≤ v.date ∧ 0 ≤ v.date - m := by
  obtain ⟨p, _, hvp⟩ := List.mem_map.mp hv
  obtain ⟨hdate, _, _, hmd, hlag, _⟩ := enrichRow_fields p
    (asofAnnual (List.insertionSort (leByDate (fun a : AnnualProj => a.report_date)) qa)
      p.ticker p.date)
    (asofTTM (List.insertionSort (leByDate (fun t : TTMProj => t.report_date)) qt)
      p.ticker p.date)
  rw [hvp] at hmd hlag hdate
  rw [hm] at hmd
  have hle : m ≤ p.date := by
    cases hT : asofTTM (List.insertionSort (leByDate (fun t : TTMProj => t.report_date)) qt)
        p.ticker p.date with
    | some t =>
      rw [hT] at hmd
      have : t.report_date = m := by simpa [coalesce2] using hmd.symm
      exact this ▸ (asofTTM_le _ _ _ t hT).2
    | none =>
      rw [hT] at hmd
      cases hA : asofAnnual
          (List.insertionSort (leByDate (fun a : AnnualProj => a.report_date)) qa)
          p.ticker p.date with
      | some a =>
        rw [hA] at hmd
        have : a.report_date = m := by simpa [coalesce2] using hmd.symm
        exact this ▸ (asofAnnual_le _ _ _ a hA).2
      | none =>
        rw [hA] at hmd
        simp [coalesce2] at hmd
  refine ⟨?_, by rw [hdate]; exact hle, by rw [hdate]; omega⟩
  rw [hlag, ← hmd, hdate]
  simp

set_option maxRecDepth 100000 in
/-- Claim C6 witness: the resolved metric date (day 80) lags the price row
(day 100) by 20 days, never negatively. -/
theorem data_lag_nonneg_witness :
    ((valuationMerge exVPrices exVAnnual exVTTM).getD 0 dummyVRow).data_lag_days =
      some 20 := by
  have hmem : (valuationMerge exVPrices exVAnnual exVTTM).getD 0 dummyVRow ∈
      valuationMerge exVPrices exVAnnual exVTTM := by
    with_unfolding_all decide
  have h := data_lag_nonneg exVPrices exVAnnual exVTTM _ hmem 80
    (by with_unfolding_all decide)
  rw [h.1]
  with_unfolding_all decide

end DepotSpec
